import Mathlib

/-!
Verification of the blog backend's article lifecycle, slug generation, image
reconciliation, search and HTTP-surface behaviour, as a shallow embedding of
`src/blog` (models.py, forms.py, views/article_views.py, views/api_views.py).

Timestamps are modelled as integers (minutes); a calendar date is the floor
division of a timestamp by `minutesPerDay`, mirroring Python's
`datetime.date()` projection used in `ArticleForm.clean_published_at`.
-/

set_option maxRecDepth 10000

/-! ### Data model (src/blog/models.py) -/

/-- `Article.Status` text choices: DRAFT, SCHEDULED, PUBLISHED. -/
inductive Status where
  | draft
  | scheduled
  | published
deriving DecidableEq, Repr

/-- The `Article` row: fields relevant to the verified behaviour.
`publishedAt = none` models a NULL `published_at`. -/
structure Article where
  id : Nat
  title : String
  slug : String
  content : String
  excerpt : String
  status : Status
  publishedAt : Option Int
deriving DecidableEq, Repr

/-- The `ArticleImage` row: owning article id and the stored file path
(`none` models a record whose `image` field is empty). -/
structure ArticleImage where
  id : Nat
  article : Nat
  image : Option String
deriving DecidableEq, Repr

/-! ### django.utils.text.slugify (ASCII path)

`slugify(value)`: lowercase, delete characters that are not alphanumerics,
underscores, hyphens or whitespace, replace each maximal run of hyphens or
whitespace by a single hyphen, and strip leading/trailing hyphens and
underscores. -/

def isSlugSpace (c : Char) : Bool :=
  c = ' ' || c = '\t' || c = '\n' || c = '\r' || c = '\x0b' || c = '\x0c'

def isSlugWordChar (c : Char) : Bool :=
  c.isAlphanum || c = '_'

def slugKeepChar (c : Char) : Bool :=
  isSlugWordChar c || isSlugSpace c || c = '-'

/-- Replace each maximal run of hyphen/whitespace characters by a single `-`.
The flag records whether we are inside such a run. -/
def collapseSep : Bool → List Char → List Char
  | _, [] => []
  | inRun, c :: cs =>
    if isSlugSpace c || c = '-' then
      if inRun then collapseSep true cs else '-' :: collapseSep true cs
    else
      c :: collapseSep false cs

def isStripChar (c : Char) : Bool := c = '-' || c = '_'

def stripEnds (cs : List Char) : List Char :=
  ((cs.dropWhile isStripChar).reverse.dropWhile isStripChar).reverse

def slugify (s : String) : String :=
  ⟨stripEnds (collapseSep false ((s.data.map Char.toLower).filter slugKeepChar))⟩

/-! ### Decimal rendering of the disambiguation counter

`f"{base_slug}-{count}"` renders `count` in decimal. `natReprAux` is the
standard digit-by-digit printer, with an explicit fuel bound (the number of
digits of `n` is at most `n + 1`, so fuel `n + 1` always suffices). -/

def charVal (c : Char) : Nat := c.toNat - 48

def natReprAux : Nat → Nat → List Char
  | 0, _ => []
  | fuel + 1, n =>
    if n < 10 then [Nat.digitChar n]
    else natReprAux fuel (n / 10) ++ [Nat.digitChar (n % 10)]

def natRepr (n : Nat) : String := ⟨natReprAux (n + 1) n⟩

/-- Reads a digit string back as a number (used only to prove `natRepr`
injective). -/
def digitsVal (cs : List Char) : Nat :=
  cs.foldl (fun acc c => acc * 10 + charVal c) 0

/-! ### Slug uniqueness loop (Article.save, src/blog/models.py lines 62-69)

```
base_slug = slugify(self.title)
unique_slug = base_slug
count = 1
while Article.objects.filter(slug=unique_slug).exists():
    unique_slug = f"{base_slug}-{count}"
    count += 1
self.slug = unique_slug
```

`slugCandidate base n` is the candidate tried at loop iteration `n`.
`searchFree` runs the loop with fuel `existing.length + 1`; since the
candidates are pairwise distinct, at most `existing.length` of them can
collide, so the fuel never runs out before the loop exits. -/

def slugCandidate (base : String) : Nat → String
  | 0 => base
  | n + 1 => base ++ "-" ++ natRepr (n + 1)

def searchFree (existing : List String) (base : String) : Nat → Nat → String
  | 0, n => slugCandidate base n
  | fuel + 1, n =>
    if slugCandidate base n ∈ existing then searchFree existing base fuel (n + 1)
    else slugCandidate base n

def generate_unique_slug (existing : List String) (title : String) : String :=
  searchFree existing (slugify title) (existing.length + 1) 0

/-! ### Article.save (src/blog/models.py lines 57-75) -/

def storedSlugs (store : List Article) : List String := store.map (·.slug)

/-- `if not self.slug:` — generate the unique slug (an empty string is falsy). -/
def assignSlug (store : List Article) (a : Article) : Article :=
  if a.slug = "" then
    { a with slug := generate_unique_slug (storedSlugs store) a.title }
  else a

/-- `if self.status == SCHEDULED and self.published_at:` then
`if timezone.now() >= self.published_at: self.status = PUBLISHED`. -/
def autoPromote (a : Article) (now : Int) : Article :=
  match a.status, a.publishedAt with
  | Status.scheduled, some t => if t ≤ now then { a with status := Status.published } else a
  | _, _ => a

def articleSaveFields (store : List Article) (a : Article) (now : Int) : Article :=
  autoPromote (assignSlug store a) now

/-- `super().save(...)`: update the row with this id, or insert a new row. -/
def upsert (store : List Article) (a : Article) : List Article :=
  if store.any (fun b => b.id == a.id) then
    store.map (fun b => if b.id == a.id then a else b)
  else store ++ [a]

/-- `Article.save`: slug assignment, auto-promotion, then the write.
Returns the store after the write together with the saved row. -/
def Article.save (store : List Article) (a : Article) (now : Int) : List Article × Article :=
  let a' := articleSaveFields store a now
  (upsert store a', a')

/-- `Article.is_published` (src/blog/models.py lines 77-85):
`status == PUBLISHED and published_at and published_at <= timezone.now()`. -/
def Article.is_published (a : Article) (now : Int) : Bool :=
  decide (a.status = Status.published) &&
    (match a.publishedAt with
     | none => false
     | some t => decide (t ≤ now))

/-! ### Image reconciliation (src/blog/views/article_views.py lines 43-47)

`ArticleImage.objects.filter(article=article).exclude(id__in=image_ids).delete()`:
an image record is deleted iff it belongs to the article and its id is not in
the submitted keep-set. -/

def imageOrphaned (articleId : Nat) (keepIds : List Nat) (img : ArticleImage) : Bool :=
  decide (img.article = articleId) && !(decide (img.id ∈ keepIds))

def reconcileImages (images : List ArticleImage) (articleId : Nat)
    (keepIds : List Nat) : List ArticleImage :=
  images.filter (fun img => !(imageOrphaned articleId keepIds img))

/-- Modelled from the spec: the `ArticleImage` model and its `post_delete`
signal `auto_delete_image_file_on_delete` are not present in
`src/blog/models.py` (they are imported by `src/blog/views/article_views.py`
and exercised by `src/blog/tests/test_models/test_article_image.py`).
Following the spec and the test
`test_article_image_signal_handles_no_image` / `...handles_missing_file`: when
an `ArticleImage` record is deleted, if the record has an image file
(`if instance.image:`) and that file exists in the file store
(`os.path.isfile`), the file is removed (`os.remove`); a missing file or an
empty image field is tolerated without error. The file store is a list of
paths; the function is total, so deletion never fails. -/
def auto_delete_image_file_on_delete (files : List String) (inst : ArticleImage) :
    List String :=
  match inst.image with
  | none => files
  | some path =>
    if path ∈ files then files.filter (fun p => !(decide (p = path))) else files

/-- Deleting every record selected by `doomed`: the records disappear and the
`post_delete` signal runs once per deleted record. -/
def deleteImages (images : List ArticleImage) (files : List String)
    (doomed : ArticleImage → Bool) : List ArticleImage × List String :=
  (images.filter (fun i => !(doomed i)),
   (images.filter doomed).foldl auto_delete_image_file_on_delete files)

/-- Direct deletion of one `ArticleImage` record (`article_image.delete()`). -/
def deleteArticleImage (images : List ArticleImage) (files : List String)
    (imgId : Nat) : List ArticleImage × List String :=
  deleteImages images files (fun i => decide (i.id = imgId))

/-- The save-time reconciliation step together with its file deletions. -/
def reconcileImagesWithFiles (images : List ArticleImage) (files : List String)
    (articleId : Nat) (keepIds : List Nat) : List ArticleImage × List String :=
  deleteImages images files (imageOrphaned articleId keepIds)

/-- `article.delete()`: cascade-delete the article's image records, running the
signal for each. -/
def deleteArticleCascade (store : List Article) (images : List ArticleImage)
    (files : List String) (articleId : Nat) :
    List Article × List ArticleImage × List String :=
  let r := deleteImages images files (fun i => decide (i.article = articleId))
  (store.filter (fun a => !(decide (a.id = articleId))), r.1, r.2)

/-! ### ArticleForm.clean_published_at (src/blog/forms.py lines 22-37) -/

def minutesPerDay : Int := 1440

/-- Python's `datetime.date()` projection of a timestamp. -/
def dateOf (t : Int) : Int := t.fdiv minutesPerDay

inductive CleanOutcome where
  | ok (publishedAt : Option Int)
  | validationError
  | pythonError
deriving DecidableEq, Repr

/-- The fall-through rule (`# during creation`):
`if status == PUBLISHED and published_at.date() < datetime.now().date(): raise`.
Calling `.date()` on a null `published_at` raises `AttributeError`, modelled as
`pythonError`. -/
def creationRuleCheck (status : Status) (pub : Option Int) (todayDate : Int) :
    CleanOutcome :=
  if status = Status.published then
    match pub with
    | some p => if dateOf p < todayDate then .validationError else .ok (some p)
    | none => .pythonError
  else .ok pub

/-- `clean_published_at`. When the form is bound to an existing row
(`self.instance and self.instance.pk`) and the SUBMITTED status is Scheduled,
the submitted date is compared against the instance's stored date; in every
other case the creation rule applies. The instance's stored status is never
consulted. -/
def clean_published_at (instancePk : Bool) (instancePublishedAt : Option Int)
    (status : Status) (pub : Option Int) (todayDate : Int) : CleanOutcome :=
  if instancePk then
    if status = Status.scheduled then
      match pub, instancePublishedAt with
      | some p, some o =>
        if dateOf p < dateOf o then .validationError else .ok (some p)
      | _, _ => .pythonError
    else creationRuleCheck status pub todayDate
  else creationRuleCheck status pub todayDate

/-! ### The edit surface (src/blog/views/article_views.py lines 35-61)

`_article_editor` POST path, modelled for a bound form (the editor is always
called with an existing article: `edit` and `drafts` fetch it first, `write`
creates the draft row before redirecting). -/

structure SubmittedForm where
  title : String
  status : Status
  publishedAt : Option Int
  content : String
  excerpt : String
  /-- Parsed `image_ids` JSON; `none` models an absent field
  (`form.cleaned_data.get('image_ids') or "[]"`). -/
  imageIds : Option (List Nat)
deriving DecidableEq, Repr

/-- `form.save()` field assignment: the bound fields overwrite the instance. -/
def applyForm (a : Article) (f : SubmittedForm) : Article :=
  { a with title := f.title, status := f.status, publishedAt := f.publishedAt,
           content := f.content, excerpt := f.excerpt }

structure EditorState where
  articles : List Article
  images : List ArticleImage
  files : List String
deriving DecidableEq, Repr

inductive EditorResult where
  /-- `redirect('blog:articles', article_slug=updated_article.slug)`. -/
  | success (s : EditorState) (redirectSlug : String)
  /-- `form.is_valid()` returned false: the form is re-rendered with
  field-level errors and nothing is persisted. -/
  | invalid (s : EditorState)
  /-- An uncaught Python exception. -/
  | pythonError (s : EditorState)
deriving DecidableEq, Repr

/-- The POST branch of `_article_editor`:
```
form = ArticleForm(request.POST, instance=article)
if form.is_valid():
    updated_article = form.save()
    updated_article.published_at = timezone.now()
    updated_article.save()
    json_ids = form.cleaned_data.get('image_ids') or "[]"
    image_ids = set(json.loads(json_ids))
    ArticleImage.objects.filter(article=article).exclude(id__in=image_ids).delete()
    return redirect(...)
```
Validation is `clean_published_at` on the bound instance; on success the form's
fields are saved (first `Article.save`), then `published_at` is overwritten
with the current time and the row is saved again (second `Article.save`), then
the image reconciliation runs. -/
def article_editor_post (s : EditorState) (a : Article) (f : SubmittedForm)
    (now : Int) : EditorResult :=
  match clean_published_at true a.publishedAt f.status f.publishedAt (dateOf now) with
  | .pythonError => .pythonError s
  | .validationError => .invalid s
  | .ok _ =>
    let r1 := Article.save s.articles (applyForm a f) now
    let r2 := Article.save r1.1 { r1.2 with publishedAt := some now } now
    let keep := f.imageIds.getD []
    let ri := reconcileImagesWithFiles s.images s.files a.id keep
    .success ⟨r2.1, ri.1, ri.2⟩ r2.2.slug

/-! ### Search (src/blog/views/api_views.py lines 59-76) -/

/-- Python `str.strip()` on the query string. -/
def pyStrip (s : String) : String :=
  ⟨((s.data.dropWhile isSlugSpace).reverse.dropWhile isSlugSpace).reverse⟩

def lowerString (s : String) : String := ⟨s.data.map Char.toLower⟩

/-- `title__icontains=query`: case-insensitive substring containment. -/
def icontains (haystack needle : String) : Bool :=
  let h := (lowerString haystack).data
  let n := (lowerString needle).data
  (List.range (h.length + 1)).any (fun i => decide ((h.drop i).take n.length = n))

def searchPred (query : String) (a : Article) : Bool :=
  decide (a.status = Status.published) && icontains a.title query

def titleLe (a b : Article) : Bool := decide (a.title ≤ b.title)

/-- Modelled from the spec: `Article.search_serialize` is called by
`search_article` in `src/blog/views/api_views.py` but is not defined in
`src/blog/models.py` as present under `src/`. Per the spec's search contract,
each result is serialized to only its title and slug. -/
def search_serialize (a : Article) : String × String := (a.title, a.slug)

/-- `search_article`: empty or whitespace-only query short-circuits to an empty
result list; otherwise Published articles whose title contains the query
case-insensitively, ordered by title, truncated to `RESULTS_LIMIT = 5`. -/
def search_article (store : List Article) (q : String) : List (String × String) :=
  let query := pyStrip q
  if query = "" then []
  else ((((store.filter (searchPred query)).mergeSort titleLe).take 5).map search_serialize)

/-! ### HTTP surface authentication behaviour

Each handler's treatment of an unauthenticated caller, from
`src/blog/views/article_views.py`, `src/blog/views/dashboard_views.py` and
`src/blog/views/api_views.py`. -/

inductive HttpResponse where
  | notFound
  | unauthorizedJson
  | ok
  | redirect
deriving DecidableEq, Repr

/-- `dashboard`: `if not request.user.is_authenticated: raise Http404`. -/
def dashboard_view (isAuth : Bool) : HttpResponse :=
  if !isAuth then .notFound else .ok

/-- `edit`: Http404 when unauthenticated, else `get_object_or_404` by slug. -/
def edit_view (isAuth : Bool) (store : List Article) (slug : String) : HttpResponse :=
  if !isAuth then .notFound
  else match store.find? (fun a => decide (a.slug = slug)) with
    | none => .notFound
    | some _ => .ok

/-- `drafts`: Http404 when unauthenticated, else `get_object_or_404` by pk and
Draft status. -/
def drafts_view (isAuth : Bool) (store : List Article) (articleId : Nat) : HttpResponse :=
  if !isAuth then .notFound
  else match store.find? (fun a => decide (a.id = articleId) && decide (a.status = Status.draft)) with
    | none => .notFound
    | some _ => .ok

/-- `write`: Http404 when unauthenticated, else create a draft and redirect. -/
def write_view (isAuth : Bool) : HttpResponse :=
  if !isAuth then .notFound else .redirect

/-- `article_delete`: Http404 when unauthenticated. -/
def article_delete_view (isAuth : Bool) (store : List Article) (articleId : Nat) : HttpResponse :=
  if !isAuth then .notFound
  else match store.find? (fun a => decide (a.id = articleId)) with
    | none => .notFound
    | some _ => .redirect

/-- `autosave`: `return JsonResponse({"error": "Unauthorized"}, status=401)`. -/
def autosave_view (isAuth : Bool) : HttpResponse :=
  if !isAuth then .unauthorizedJson else .ok

/-- `topics_api`: `return JsonResponse({"error": "Unauthorized"}, status=401)`. -/
def topics_api_view (isAuth : Bool) : HttpResponse :=
  if !isAuth then .unauthorizedJson else .ok

/-- `articles` (src/blog/views/article_views.py lines 26-32): unauthenticated
callers fetch by slug AND stored status Published; authenticated callers fetch
by slug alone. `none` models the Http404 of `get_object_or_404`. -/
def articles_view (isAuth : Bool) (store : List Article) (slug : String) : Option Article :=
  if !isAuth then
    store.find? (fun a => decide (a.slug = slug) && decide (a.status = Status.published))
  else
    store.find? (fun a => decide (a.slug = slug))

/-! ### Theorems about the decimal printer and the slug loop -/

theorem digitsVal_append_singleton (l : List Char) (c : Char) :
    digitsVal (l ++ [c]) = digitsVal l * 10 + charVal c := by
  simp [digitsVal, List.foldl_append]

theorem charVal_digitChar {d : Nat} (h : d < 10) :
    charVal (Nat.digitChar d) = d := by
  have : ∀ m, m < 10 → charVal (Nat.digitChar m) = m := by decide
  exact this d h

theorem natReprAux_val : ∀ fuel n, n < fuel → digitsVal (natReprAux fuel n) = n := by
  intro fuel
  induction fuel with
  | zero => intro n h; omega
  | succ fuel ih =>
    intro n h
    by_cases h10 : n < 10
    · simp [natReprAux, h10, digitsVal, charVal_digitChar h10]
    · have hdiv : n / 10 < fuel := by omega
      simp only [natReprAux, if_neg h10]
      rw [digitsVal_append_singleton, ih _ hdiv, charVal_digitChar (Nat.mod_lt _ (by omega))]
      omega

theorem natRepr_injective : Function.Injective natRepr := by
  intro m n h
  have hd : natReprAux (m + 1) m = natReprAux (n + 1) n := congrArg String.data h
  have := natReprAux_val (m + 1) m (by omega)
  rw [hd, natReprAux_val (n + 1) n (by omega)] at this
  omega

theorem natReprAux_length_pos : ∀ fuel n, 0 < fuel → 0 < (natReprAux fuel n).length := by
  intro fuel n hf
  match fuel with
  | fuel + 1 =>
    by_cases h10 : n < 10
    · simp [natReprAux, h10]
    · simp [natReprAux, h10]

theorem natRepr_data_length_pos (n : Nat) : 0 < (natRepr n).data.length :=
  natReprAux_length_pos (n + 1) n (by omega)

theorem slugCandidate_data (base : String) (n : Nat) :
    (slugCandidate base (n + 1)).data = base.data ++ '-' :: (natRepr (n + 1)).data := by
  show (base ++ "-" ++ natRepr (n + 1)).data = _
  rw [String.data_append, String.data_append, List.append_assoc]
  rfl

theorem slugCandidate_injective (base : String) :
    Function.Injective (slugCandidate base) := by
  intro m n h
  match m, n with
  | 0, 0 => rfl
  | 0, n + 1 =>
    have hd := congrArg String.data h
    rw [slugCandidate_data] at hd
    have hlen := congrArg List.length hd
    simp only [slugCandidate, List.length_append, List.length_cons] at hlen
    have := natRepr_data_length_pos (n + 1)
    omega
  | m + 1, 0 =>
    have hd := congrArg String.data h
    rw [slugCandidate_data] at hd
    have hlen := congrArg List.length hd
    simp only [slugCandidate, List.length_append, List.length_cons] at hlen
    have := natRepr_data_length_pos (m + 1)
    omega
  | m + 1, n + 1 =>
    have hd := congrArg String.data h
    rw [slugCandidate_data, slugCandidate_data] at hd
    have h2 := List.append_cancel_left hd
    simp only [List.cons.injEq, true_and] at h2
    have := natRepr_injective (String.ext h2)
    omega

theorem exists_free_candidate (existing : List String) (base : String) :
    ∃ k, k ≤ existing.length ∧ slugCandidate base k ∉ existing := by
  by_contra hcon
  push_neg at hcon
  have hsub : (List.range (existing.length + 1)).map (slugCandidate base) ⊆ existing := by
    intro s hs
    simp only [List.mem_map, List.mem_range] at hs
    obtain ⟨k, hk, rfl⟩ := hs
    exact hcon k (by omega)
  have hnd : ((List.range (existing.length + 1)).map (slugCandidate base)).Nodup :=
    (List.nodup_range _).map (slugCandidate_injective base)
  have hle := (List.subperm_of_subset hnd hsub).length_le
  simp at hle

theorem searchFree_spec (existing : List String) (base : String) :
    ∀ fuel n, (∃ k, k < fuel ∧ slugCandidate base (n + k) ∉ existing) →
    ∃ j, searchFree existing base fuel n = slugCandidate base (n + j) ∧
      slugCandidate base (n + j) ∉ existing ∧
      ∀ i, i < j → slugCandidate base (n + i) ∈ existing := by
  intro fuel
  induction fuel with
  | zero =>
    rintro n ⟨k, hk, _⟩
    omega
  | succ fuel ih =>
    rintro n ⟨k, hk, hfree⟩
    by_cases hmem : slugCandidate base n ∈ existing
    · have hk0 : k ≠ 0 := by
        rintro rfl
        simp only [Nat.add_zero] at hfree
        exact hfree hmem
      have hshift : (n + 1) + (k - 1) = n + k := by omega
      obtain ⟨j, hje, hjf, hjall⟩ := ih (n + 1) ⟨k - 1, by omega, by rw [hshift]; exact hfree⟩
      have hj1 : (n + 1) + j = n + (j + 1) := by omega
      refine ⟨j + 1, ?_, ?_, ?_⟩
    
      · simp only [searchFree, if_pos hmem]
        rw [hje, hj1]
      · rw [← hj1]; exact hjf
      · intro i hi
        match i with
        | 0 => simpa using hmem
        | i + 1 =>
          have : n + (i + 1) = (n + 1) + i := by omega
          rw [this]
          exact hjall i (by omega)
    · exact ⟨0, by simp [searchFree, hmem], by simpa using hmem, by omega⟩

theorem generate_unique_slug_spec (existing : List String) (title : String) :
    ∃ j, generate_unique_slug existing title = slugCandidate (slugify title) j ∧
      slugCandidate (slugify title) j ∉ existing ∧
      ∀ i, i < j → slugCandidate (slugify title) i ∈ existing := by
  obtain ⟨k, hk, hfree⟩ := exists_free_candidate existing (slugify title)
  obtain ⟨j, h1, h2, h3⟩ :=
    searchFree_spec existing (slugify title) (existing.length + 1) 0
      ⟨k, by omega, by simpa using hfree⟩
  exact ⟨j, by simpa using h1, by simpa using h2, fun i hi => by simpa using h3 i hi⟩

theorem slugCandidate_one (base : String) : slugCandidate base 1 = base ++ "-1" := by
  apply String.ext
  rw [slugCandidate_data base 0, String.data_append]
  rfl

/-! ### Frame lemmas for `Article.save` -/

theorem assignSlug_status (store : List Article) (a : Article) :
    (assignSlug store a).status = a.status := by
  unfold assignSlug; split <;> rfl

theorem assignSlug_publishedAt (store : List Article) (a : Article) :
    (assignSlug store a).publishedAt = a.publishedAt := by
  unfold assignSlug; split <;> rfl

theorem autoPromote_slug (a : Article) (now : Int) :
    (autoPromote a now).slug = a.slug := by
  unfold autoPromote
  split
  · split <;> rfl
  · rfl

theorem autoPromote_publishedAt (a : Article) (now : Int) :
    (autoPromote a now).publishedAt = a.publishedAt := by
  unfold autoPromote
  split
  · split <;> rfl
  · rfl

theorem autoPromote_fires (a : Article) (now t : Int) (hs : a.status = Status.scheduled)
    (hp : a.publishedAt = some t) (ht : t ≤ now) :
    (autoPromote a now).status = Status.published := by
  unfold autoPromote
  rw [hs, hp]
  simp [ht]

theorem autoPromote_future (a : Article) (now t : Int) (hs : a.status = Status.scheduled)
    (hp : a.publishedAt = some t) (ht : now < t) :
    (autoPromote a now).status = a.status := by
  unfold autoPromote
  rw [hs, hp]
  simp [show ¬ t ≤ now from by omega, hs]

theorem autoPromote_not_scheduled (a : Article) (now : Int)
    (hs : a.status ≠ Status.scheduled) : autoPromote a now = a := by
  unfold autoPromote
  cases h : a.status with
  | scheduled => exact absurd h hs
  | draft => cases hp : a.publishedAt <;> simp
  | published => cases hp : a.publishedAt <;> simp

theorem autoPromote_pub_none (a : Article) (now : Int) (hp : a.publishedAt = none) :
    autoPromote a now = a := by
  unfold autoPromote
  rw [hp]
  cases h : a.status <;> simp

/-! ### Lemmas about the image-file deletion signal -/

theorem auto_delete_subset (files : List String) (inst : ArticleImage) :
    ∀ q ∈ auto_delete_image_file_on_delete files inst, q ∈ files := by
  intro q hq
  unfold auto_delete_image_file_on_delete at hq
  split at hq
  · exact hq
  · split at hq
    · exact (List.mem_filter.mp hq).1
    · exact hq

theorem auto_delete_own (files : List String) (inst : ArticleImage) (p : String)
    (hp : inst.image = some p) : p ∉ auto_delete_image_file_on_delete files inst := by
  unfold auto_delete_image_file_on_delete
  rw [hp]
  show p ∉ if p ∈ files then List.filter (fun q => !decide (q = p)) files else files
  by_cases hf : p ∈ files
  · rw [if_pos hf]
    intro hmem
    have := (List.mem_filter.mp hmem).2
    simp at this
  · rw [if_neg hf]
    exact hf

theorem foldl_auto_delete_not_mem (l : List ArticleImage) (files : List String)
    (p : String) (hp : p ∉ files) :
    p ∉ l.foldl auto_delete_image_file_on_delete files := by
  induction l generalizing files with
  | nil => exact hp
  | cons i l ih =>
    exact ih _ (fun hmem => hp (auto_delete_subset _ _ _ hmem))

theorem foldl_auto_delete_removes (l : List ArticleImage) (i : ArticleImage) (p : String)
    (hp : i.image = some p) :
    ∀ files, i ∈ l → p ∉ l.foldl auto_delete_image_file_on_delete files := by
  induction l with
  | nil => intro files hi; cases hi
  | cons j l ih =>
    intro files hi
    rcases List.mem_cons.mp hi with rfl | hmem
    · exact foldl_auto_delete_not_mem l _ p (auto_delete_own _ _ _ hp)
    · exact ih _ hmem

theorem titleLe_trans : ∀ a b c : Article, titleLe a b → titleLe b c → titleLe a c := by
  intro a b c hab hbc
  simp only [titleLe, decide_eq_true_eq] at *
  exact le_trans hab hbc

theorem titleLe_total : ∀ a b : Article, titleLe a b || titleLe b a := by
  intro a b
  simp only [titleLe]
  rcases le_total a.title b.title with h | h <;> simp [h]

/-! ### Claims -/

/-- C1 (counterexample): the claim "the slug is assigned exactly once, at the
article's first save, and every later save — including saves after a title
edit — leaves the slug unchanged" fails when the title slugifies to the empty
string. `slugify "!!!" = ""`, so the first save stores slug `""`; since an
empty slug is falsy, the next save after renaming the article to "hello"
regenerates the slug, changing it from `""` to `"hello"`. -/
theorem C1_counterexample :
    (Article.save (Article.save [] ⟨1, "!!!", "", "", "", Status.draft, none⟩ 0).1
        { (Article.save [] ⟨1, "!!!", "", "", "", Status.draft, none⟩ 0).2 with
            title := "hello" } 0).2.slug
      ≠ (Article.save [] ⟨1, "!!!", "", "", "", Status.draft, none⟩ 0).2.slug := by
  decide

/-- C1 (amended): for every article whose title slugifies to a non-empty
string (equivalently, whose stored slug is non-empty after the first save),
the slug is assigned exactly once: a save of an article with an empty slug
field stores the first free candidate of the sequence
`slugify(title), slugify(title)-1, slugify(title)-2, …` (free meaning no
stored article holds it); a save of an article with a non-empty slug leaves
the slug unchanged; and a second new article whose title slugifies to a base
already taken, with `base-1` still free, receives exactly `base-1`. -/
theorem C1_slug_assignment (store : List Article) (a : Article) (now : Int) :
    (a.slug = "" →
      ∃ j, (Article.save store a now).2.slug = slugCandidate (slugify a.title) j ∧
        slugCandidate (slugify a.title) j ∉ storedSlugs store ∧
        ∀ i, i < j → slugCandidate (slugify a.title) i ∈ storedSlugs store) ∧
    (a.slug ≠ "" → (Article.save store a now).2.slug = a.slug) ∧
    (a.slug = "" → slugify a.title ∈ storedSlugs store →
      slugify a.title ++ "-1" ∉ storedSlugs store →
      (Article.save store a now).2.slug = slugify a.title ++ "-1") := by
  have hsave : (Article.save store a now).2.slug = (assignSlug store a).slug := by
    show (articleSaveFields store a now).slug = _
    rw [articleSaveFields, autoPromote_slug]
  refine ⟨?_, ?_, ?_⟩
  · intro hempty
    rw [hsave, assignSlug, if_pos hempty]
    exact generate_unique_slug_spec (storedSlugs store) a.title
  · intro hne
    rw [hsave, assignSlug, if_neg hne]
  · intro hempty hbase hfree1
    rw [hsave, assignSlug, if_pos hempty]
    obtain ⟨j, hj, hjfree, hjall⟩ := generate_unique_slug_spec (storedSlugs store) a.title
    have hj0 : j ≠ 0 := by
      rintro rfl
      exact hjfree hbase
    have hj2 : j < 2 := by
      by_contra hge
      have := hjall 1 (by omega)
      rw [slugCandidate_one] at this
      exact hfree1 this
    have : j = 1 := by omega
    subst this
    rw [hj, slugCandidate_one]

/-- C1 (witness): a second article titled "Hello" next to a stored article
with slug "hello" receives slug `slugify("Hello") ++ "-1"`; a save of an
article whose slug is already set leaves it unchanged. -/
theorem C1_witness :
    (Article.save [⟨1, "Hello", "hello", "", "", Status.draft, none⟩]
        ⟨2, "Hello", "", "", "", Status.draft, none⟩ 0).2.slug = slugify "Hello" ++ "-1" ∧
    (Article.save [] ⟨3, "Changed Title", "stable-slug", "", "", Status.draft, none⟩ 0).2.slug
      = "stable-slug" := by
  constructor
  · exact (C1_slug_assignment _ _ 0).2.2 (by decide) (by decide) (by decide)
  · exact (C1_slug_assignment _ _ 0).2.1 (by decide)

/-- C2: on every save, a Scheduled article with a non-null `published_at` at
or before the current time is stored as Published (boundary inclusive); this
is the only automatic transition — a save never changes the status of a Draft
article, never changes a Published article's status, never changes status when
`published_at` is null or strictly in the future, and never changes
`published_at` itself. -/
theorem C2_auto_promotion (store : List Article) (a : Article) (now t : Int) :
    (a.status = Status.scheduled → a.publishedAt = some t → t ≤ now →
      (Article.save store a now).2.status = Status.published) ∧
    (a.status = Status.draft → (Article.save store a now).2.status = Status.draft) ∧
    (a.status = Status.published → (Article.save store a now).2.status = Status.published) ∧
    (a.publishedAt = none → (Article.save store a now).2.status = a.status) ∧
    (a.status = Status.scheduled → a.publishedAt = some t → now < t →
      (Article.save store a now).2.status = Status.scheduled) ∧
    (Article.save store a now).2.publishedAt = a.publishedAt := by
  have hst : (assignSlug store a).status = a.status := assignSlug_status store a
  have hpb : (assignSlug store a).publishedAt = a.publishedAt := assignSlug_publishedAt store a
  have hsave : (Article.save store a now).2 = autoPromote (assignSlug store a) now := rfl
  refine ⟨?_, ?_, ?_, ?_, ?_, ?_⟩
  · intro h1 h2 h3
    rw [hsave]
    exact autoPromote_fires _ now t (hst.trans h1) (hpb.trans h2) h3
  · intro h1
    rw [hsave, autoPromote_not_scheduled _ now (by rw [hst, h1]; intro hc; cases hc), hst, h1]
  · intro h1
    rw [hsave, autoPromote_not_scheduled _ now (by rw [hst, h1]; intro hc; cases hc), hst, h1]
  · intro h1
    rw [hsave, autoPromote_pub_none _ now (hpb.trans h1), hst]
  · intro h1 h2 h3
    rw [hsave, autoPromote_future _ now t (hst.trans h1) (hpb.trans h2) h3, hst, h1]
  · rw [hsave, autoPromote_publishedAt, hpb]

/-- C2 (witness): a Scheduled article with `published_at = 50` saved at time
100 is stored Published with `published_at` untouched; a Draft article saved
at time 100 stays Draft. -/
theorem C2_witness :
    (Article.save [] ⟨1, "A", "a", "", "", Status.scheduled, some 50⟩ 100).2.status
      = Status.published ∧
    (Article.save [] ⟨2, "B", "b", "", "", Status.draft, none⟩ 100).2.status
      = Status.draft := by
  constructor
  · exact (C2_auto_promotion [] _ 100 50).1 rfl rfl (by decide)
  · exact (C2_auto_promotion [] _ 100 0).2.1 rfl

/-- C3: `is_published()` is a pure (side-effect-free, modelled as a function)
derived predicate, true iff the stored status is Published AND `published_at`
is non-null AND `published_at` is at or before the current time (boundary
inclusive); in particular it is false for a Published article whose
`published_at` is null or strictly in the future, and true at the exact
boundary `published_at = now`. -/
theorem C3_is_published_iff (a : Article) (now : Int) :
    (Article.is_published a now = true ↔
      a.status = Status.published ∧ ∃ t, a.publishedAt = some t ∧ t ≤ now) ∧
    (a.publishedAt = none → Article.is_published a now = false) ∧
    (∀ t, a.publishedAt = some t → now < t → Article.is_published a now = false) ∧
    (a.status = Status.published → a.publishedAt = some now →
      Article.is_published a now = true) := by
  refine ⟨?_, ?_, ?_, ?_⟩
  · unfold Article.is_published
    cases hp : a.publishedAt <;> simp [hp]
  · intro h
    unfold Article.is_published
    rw [h]
    simp
  · intro t h hlt
    unfold Article.is_published
    rw [h]
    simp
    intro
    omega
  · intro h1 h2
    unfold Article.is_published
    rw [h1, h2]
    simp

/-- C3 (witness): an article with status Published but null `published_at` is
not published; one with `published_at` equal to now exactly is published. -/
theorem C3_witness :
    Article.is_published ⟨1, "A", "a", "", "", Status.published, none⟩ 100 = false ∧
    Article.is_published ⟨2, "B", "b", "", "", Status.published, some 100⟩ 100 = true := by
  constructor
  · exact (C3_is_published_iff _ 100).2.1 rfl
  · exact (C3_is_published_iff _ 100).2.2.2 rfl rfl

/-- C4: the reconciliation step keeps exactly the images of the article whose
id is in the submitted keep-set, together with every image of other articles;
an empty keep-set removes all of the article's images; the record part of the
file-aware reconciliation is the same filter; and re-running reconciliation
with the same keep-set is a no-op. -/
theorem C4_image_reconciliation (images : List ArticleImage) (aid : Nat)
    (keep : List Nat) (i : ArticleImage) :
    (i ∈ reconcileImages images aid keep ↔
      i ∈ images ∧ (i.article ≠ aid ∨ i.id ∈ keep)) ∧
    (i ∈ reconcileImages images aid [] → i.article ≠ aid) ∧
    (i ∈ images → i.article ≠ aid → i ∈ reconcileImages images aid keep) ∧
    reconcileImages (reconcileImages images aid keep) aid keep
      = reconcileImages images aid keep ∧
    (∀ files, (reconcileImagesWithFiles images files aid keep).1
      = reconcileImages images aid keep) := by
  have hmem : ∀ ks, i ∈ reconcileImages images aid ks ↔
      i ∈ images ∧ (i.article ≠ aid ∨ i.id ∈ ks) := by
    intro ks
    unfold reconcileImages imageOrphaned
    rw [List.mem_filter]
    constructor
    · rintro ⟨h1, h2⟩
      refine ⟨h1, ?_⟩
      by_cases ha : i.article = aid <;> by_cases hk : i.id ∈ ks <;> simp_all
    · rintro ⟨h1, h2⟩
      refine ⟨h1, ?_⟩
      rcases h2 with h | h <;> simp [h]
  refine ⟨hmem keep, ?_, ?_, ?_, fun _ => rfl⟩
  · intro h
    have := (hmem []).mp h
    simpa using this.2
  · intro h1 h2
    exact (hmem keep).mpr ⟨h1, Or.inl h2⟩
  · unfold reconcileImages
    rw [List.filter_filter]
    congr 1
    funext x
    rw [Bool.and_self]

/-- C4 (witness): with images A, B, C of article 7 and keep-set containing A
and B, reconciliation removes exactly C; images of another article survive an
empty keep-set. -/
theorem C4_witness :
    (⟨3, 7, none⟩ : ArticleImage)
      ∉ reconcileImages [⟨1, 7, none⟩, ⟨2, 7, none⟩, ⟨3, 7, none⟩] 7 [1, 2] ∧
    (⟨1, 7, none⟩ : ArticleImage)
      ∈ reconcileImages [⟨1, 7, none⟩, ⟨2, 7, none⟩, ⟨3, 7, none⟩] 7 [1, 2] ∧
    (⟨9, 8, none⟩ : ArticleImage) ∈ reconcileImages [⟨9, 8, none⟩] 7 [] := by
  refine ⟨?_, ?_, ?_⟩
  · intro hmemc
    have h := (C4_image_reconciliation [⟨1, 7, none⟩, ⟨2, 7, none⟩, ⟨3, 7, none⟩]
      7 [1, 2] ⟨3, 7, none⟩).1.mp hmemc
    revert h
    decide
  · exact (C4_image_reconciliation _ 7 [1, 2] _).1.mpr (by decide)
  · exact (C4_image_reconciliation [⟨9, 8, none⟩] 7 [] ⟨9, 8, none⟩).2.2.1
      (by decide) (by decide)

/-- C5 (code bug, evaluated): a successful editor POST that keeps a Draft
article Draft nevertheless rewrites its `published_at` to the current time:
`_article_editor` (src/blog/views/article_views.py lines 39-41) runs
`updated_article.published_at = timezone.now(); updated_article.save()`
unconditionally after every valid form save. The repository's own tests
(`test_drafts_view_post_keep_draft_status`,
`test_edit_view_published_at_not_updated_when_already_set`) assert the
opposite, so the stamping is a slip in the code and the claim reflects the
intent. Here a Draft article with `published_at = none`, submitted with
status Draft at time 100, ends up stored with `published_at = some 100`. -/
theorem C5_blanket_stamp_eval :
    article_editor_post
        ⟨[⟨1, "Draft Article", "draft-article", "c", "", Status.draft, none⟩], [], []⟩
        ⟨1, "Draft Article", "draft-article", "c", "", Status.draft, none⟩
        ⟨"Still Draft", Status.draft, none, "x", "", some []⟩ 100 =
      EditorResult.success
        ⟨[⟨1, "Still Draft", "draft-article", "x", "", Status.draft, some 100⟩], [], []⟩
        "draft-article" := by
  decide

/-- C6: a search with an empty or whitespace-only query returns the empty
sequence for every store (so without consulting the repository); otherwise the
result is the Published articles whose title contains the query as a
case-insensitive substring, ordered by title (some permutation `l` of the
matching articles, sorted), truncated to the first 5, each serialized to
title and slug. -/
theorem C6_search_characterization (store : List Article) (q : String) :
    ∃ l : List Article,
      l.Perm (store.filter (searchPred (pyStrip q))) ∧
      List.Pairwise (fun a b => titleLe a b = true) l ∧
      search_article store q =
        if pyStrip q = "" then [] else (l.take 5).map search_serialize := by
  refine ⟨(store.filter (searchPred (pyStrip q))).mergeSort titleLe,
    List.mergeSort_perm _ _, ?_, ?_⟩
  · exact List.sorted_mergeSort titleLe_trans titleLe_total _
  · rfl

/-- C7 (counterexample): the claim says that when editing an already-Scheduled
article the new date is rejected ONLY IF it is earlier than the previously
stored publish date. But `clean_published_at` selects that comparison by the
SUBMITTED status, not the stored one: editing an article whose stored
`published_at` is day 10 while submitting status Published with date day 20
(current date day 30) is rejected, although day 20 is not earlier than the
stored day 10. -/
theorem C7_counterexample :
    clean_published_at true (some (10 * 1440)) Status.published (some (20 * 1440)) 30
      = CleanOutcome.validationError ∧
    ¬ (dateOf (20 * 1440) < dateOf (10 * 1440)) := by
  decide

/-- C7 (amended): past publish dates are rejected as field-level validation
errors keyed on the SUBMITTED status: at creation a submitted Published status
with a date before the current date is rejected (iff); on an edit with
submitted status Scheduled the date is rejected iff its day precedes the
instance's stored date's day (regardless of the stored status); on an edit
with submitted status Published the creation rule applies (rejected iff before
the current date); a non-Published submission at creation is accepted; and a
validation failure makes the editor return the form with field-level errors,
leaving the persisted state unchanged. -/
theorem C7_publish_date_validation (inst : Option Int) (o p today : Int) (st : Status)
    (s : EditorState) (a : Article) (f : SubmittedForm) (now : Int) :
    (clean_published_at false inst Status.published (some p) today
        = CleanOutcome.validationError ↔ dateOf p < today) ∧
    (clean_published_at true (some o) Status.scheduled (some p) today
        = CleanOutcome.validationError ↔ dateOf p < dateOf o) ∧
    (clean_published_at true (some o) Status.published (some p) today
        = CleanOutcome.validationError ↔ dateOf p < today) ∧
    (st ≠ Status.published →
      clean_published_at false inst st (some p) today = CleanOutcome.ok (some p)) ∧
    (clean_published_at true a.publishedAt f.status f.publishedAt (dateOf now)
        = CleanOutcome.validationError →
      article_editor_post s a f now = EditorResult.invalid s) := by
  refine ⟨?_, ?_, ?_, ?_, ?_⟩
  · simp only [clean_published_at, creationRuleCheck, if_neg (by simp : ¬ False), if_pos rfl]
    split <;> simp_all
  · simp only [clean_published_at, if_pos rfl]
    split <;> simp_all
  · simp only [clean_published_at, creationRuleCheck, if_pos rfl, if_neg (by decide :
      ¬ Status.published = Status.scheduled)]
    split <;> simp_all
  · intro hst
    simp [clean_published_at, creationRuleCheck, hst]
  · intro h
    simp [article_editor_post, h]

/-- C7 (witness): a new Published article dated day 0 with current date day 1
is rejected; an edit of a Scheduled article (stored date day 2) submitted as
Scheduled with date day 0 at time 100 is rejected by the editor without
touching the store. -/
theorem C7_witness :
    clean_published_at false none Status.published (some 0) 1
      = CleanOutcome.validationError ∧
    article_editor_post ⟨[⟨1, "T", "t", "", "", Status.scheduled, some 2880⟩], [], []⟩
        ⟨1, "T", "t", "", "", Status.scheduled, some 2880⟩
        ⟨"T", Status.scheduled, some 0, "", "", none⟩ 100 =
      EditorResult.invalid ⟨[⟨1, "T", "t", "", "", Status.scheduled, some 2880⟩], [], []⟩ := by
  constructor
  · exact (C7_publish_date_validation none 0 0 1 Status.draft ⟨[], [], []⟩
      ⟨1, "T", "t", "", "", Status.draft, none⟩
      ⟨"T", Status.draft, none, "", "", none⟩ 0).1.mpr (by decide)
  · exact (C7_publish_date_validation none 0 0 1 Status.draft
      ⟨[⟨1, "T", "t", "", "", Status.scheduled, some 2880⟩], [], []⟩
      ⟨1, "T", "t", "", "", Status.scheduled, some 2880⟩
      ⟨"T", Status.scheduled, some 0, "", "", none⟩ 100).2.2.2.2 (by decide)

/-- C8 (counterexample): the claim allows exactly one endpoint — the autosave
API — to answer an unauthenticated caller with a distinct unauthorized signal.
But `topics_api` (src/blog/views/api_views.py lines 79-82) also returns a 401
JSON response to an unauthenticated caller instead of the not-found mask. -/
theorem C8_counterexample :
    topics_api_view false = HttpResponse.unauthorizedJson ∧
    topics_api_view false ≠ HttpResponse.notFound := by
  decide

/-- C8 (amended): every auth-requiring endpoint masks an unauthenticated
caller as not-found, with exactly two exceptions — the autosave API and the
topic-creation API — which return a distinct unauthorized (401) signal. -/
theorem C8_auth_masking (store : List Article) (slug : String) (articleId : Nat) :
    dashboard_view false = HttpResponse.notFound ∧
    edit_view false store slug = HttpResponse.notFound ∧
    drafts_view false store articleId = HttpResponse.notFound ∧
    write_view false = HttpResponse.notFound ∧
    article_delete_view false store articleId = HttpResponse.notFound ∧
    autosave_view false = HttpResponse.unauthorizedJson ∧
    topics_api_view false = HttpResponse.unauthorizedJson := by
  exact ⟨rfl, rfl, rfl, rfl, rfl, rfl, rfl⟩

/-- C9: whichever way an `ArticleImage` record is deleted — directly, by the
save-time reconciliation, or by the cascade when its article is deleted — the
backing file is removed from the file store, the record itself is gone, and
the deletion is total even when the file is already missing (the signal then
leaves the file store unchanged, raising no error); a record with no image
leaves the file store unchanged. -/
theorem C9_file_deletion (store : List Article) (images : List ArticleImage)
    (files : List String) (imgId articleId : Nat) (keep : List Nat)
    (i : ArticleImage) (p : String) :
    (i ∈ images → i.id = imgId → i.image = some p →
      p ∉ (deleteArticleImage images files imgId).2 ∧
      i ∉ (deleteArticleImage images files imgId).1) ∧
    (i ∈ images → imageOrphaned articleId keep i = true → i.image = some p →
      p ∉ (reconcileImagesWithFiles images files articleId keep).2) ∧
    (i ∈ images → i.article = articleId → i.image = some p →
      p ∉ (deleteArticleCascade store images files articleId).2.2) ∧
    (i.image = some p → p ∉ files → auto_delete_image_file_on_delete files i = files) ∧
    (i.image = none → auto_delete_image_file_on_delete files i = files) := by
  refine ⟨?_, ?_, ?_, ?_, ?_⟩
  · intro hmem hid hp
    constructor
    · apply foldl_auto_delete_removes _ i p hp
      exact List.mem_filter.mpr ⟨hmem, by simp [hid]⟩
    · intro hcon
      have := (List.mem_filter.mp hcon).2
      simp [hid] at this
  · intro hmem horph hp
    apply foldl_auto_delete_removes _ i p hp
    exact List.mem_filter.mpr ⟨hmem, horph⟩
  · intro hmem hart hp
    apply foldl_auto_delete_removes _ i p hp
    exact List.mem_filter.mpr ⟨hmem, by simp [hart]⟩
  · intro hp hf
    unfold auto_delete_image_file_on_delete
    rw [hp]
    show (if p ∈ files then List.filter (fun q => !decide (q = p)) files else files) = files
    rw [if_neg hf]
  · intro hp
    unfold auto_delete_image_file_on_delete
    rw [hp]

/-- C9 (witness): deleting the record of `f.jpg` removes `f.jpg` from the file
store; deleting a record whose file `missing.jpg` is absent leaves the file
store unchanged. -/
theorem C9_witness :
    "f.jpg" ∉ (deleteArticleImage [⟨1, 7, some "f.jpg"⟩] ["f.jpg"] 1).2 ∧
    auto_delete_image_file_on_delete ["g.jpg"] ⟨2, 7, some "missing.jpg"⟩ = ["g.jpg"] := by
  constructor
  · exact ((C9_file_deletion [] [⟨1, 7, some "f.jpg"⟩] ["f.jpg"] 1 0 []
      ⟨1, 7, some "f.jpg"⟩ "f.jpg").1 (by decide) rfl rfl).1
  · exact (C9_file_deletion [] [] ["g.jpg"] 0 0 []
      ⟨2, 7, some "missing.jpg"⟩ "missing.jpg").2.2.2.1 rfl (by decide)

/-- C10: for an unauthenticated caller the single-article fetch is decided by
the STORED status alone: a returned article always has the requested slug and
stored status Published, a matching Published article is always found, and
such an article is served even when its `published_at` is null — a case in
which `is_published()` is false; an authenticated caller gets the article for
a matching slug regardless of status. -/
theorem C10_article_fetch (store : List Article) (slug : String) (a : Article)
    (now : Int) :
    (articles_view false store slug = some a →
      a.slug = slug ∧ a.status = Status.published) ∧
    ((articles_view false store slug).isSome ↔
      ∃ b ∈ store, b.slug = slug ∧ b.status = Status.published) ∧
    ((articles_view true store slug).isSome ↔ ∃ b ∈ store, b.slug = slug) ∧
    (articles_view false store slug = some a → a.publishedAt = none →
      Article.is_published a now = false) := by
  refine ⟨?_, ?_, ?_, ?_⟩
  · intro h
    have hp := List.find?_some (by simpa [articles_view] using h)
    simpa using hp
  · simp [articles_view, List.find?_isSome]
  · simp [articles_view, List.find?_isSome]
  · intro _ hnone
    unfold Article.is_published
    rw [hnone]
    simp

/-- C10 (witness): a stored-Published article with null `published_at` is
served to an unauthenticated caller even though `is_published()` is false;
an authenticated caller sees a Draft article. -/
theorem C10_witness :
    (articles_view false [⟨1, "A", "x", "", "", Status.published, none⟩] "x").isSome ∧
    ((articles_view false [⟨1, "A", "x", "", "", Status.published, none⟩] "x").all
      fun b => Article.is_published b 100 = false) ∧
    (articles_view true [⟨2, "B", "y", "", "", Status.draft, none⟩] "y").isSome := by
  refine ⟨?_, ?_, ?_⟩
  · exact (C10_article_fetch [⟨1, "A", "x", "", "", Status.published, none⟩] "x"
      ⟨1, "A", "x", "", "", Status.published, none⟩ 100).2.1.mpr
      ⟨⟨1, "A", "x", "", "", Status.published, none⟩, by decide, rfl, rfl⟩
  · simp only [Option.all]
    have := (C10_article_fetch [⟨1, "A", "x", "", "", Status.published, none⟩] "x"
      ⟨1, "A", "x", "", "", Status.published, none⟩ 100).2.2.2 (by decide) rfl
    simpa [articles_view] using this
  · exact (C10_article_fetch [⟨2, "B", "y", "", "", Status.draft, none⟩] "y"
      ⟨2, "B", "y", "", "", Status.draft, none⟩ 100).2.2.1.mpr
      ⟨⟨2, "B", "y", "", "", Status.draft, none⟩, by decide, rfl⟩
